import Mathlib

/-!
Shallow embedding of the analytics core of `trading-terminal-backend.py`:
the options-chain normalization (`/api/options`), the IV-surface builder
(`/api/iv-surface`) and the ATM term-structure builder
(`/api/term-structure`).

Modelling conventions:
* Python floats that carry market data are modelled as exact rationals `ℚ`;
  a float field that may be NaN upstream is modelled as `Option ℚ`
  (`none` = NaN / missing), since `math.isnan` / `notna()` are the only
  NaN observations the code makes.
* `datetime` subtraction `.days` is an `ℤ` (it may be negative).
* A per-expiration fetch that may fail (the `try/except: continue` around
  each expiration) is modelled as `Option OptionChainSnapshot` (`none` =
  the fetch or the parsing of that snapshot raised).
* The spot price `t.fast_info.last_price` resolution is modelled as
  `Option ℚ`; the Python guard `if not price` is false for `None` and for
  `0`, so both are mapped to the "Cannot determine spot price" response.
* Python `round(x, 4)` is modelled as exact round-half-to-even at 4
  decimal places on `ℚ`.
-/

/-- One raw option row as delivered by the upstream chain
(`chain.calls` / `chain.puts` rows): numeric fields that upstream may
report as NaN are `Option ℚ` / `Option ℤ` with `none` for NaN. -/
structure RawQuote where
  strike : ℚ
  lastPrice : Option ℚ
  bid : Option ℚ
  ask : Option ℚ
  volume : Option ℤ
  openInterest : Option ℤ
  impliedVolatility : Option ℚ
  deriving DecidableEq, Repr

/-- A normalized option quote as serialized by the `/api/options` endpoint:
every missing numeric field has been replaced by `0`
(`float(row[f]) if not math.isnan(row[f]) else 0`). -/
structure OptionQuote where
  strike : ℚ
  lastPrice : ℚ
  bid : ℚ
  ask : ℚ
  volume : ℤ
  openInterest : ℤ
  impliedVolatility : ℚ
  deriving DecidableEq, Repr

/-- The normalization applied per row in the `/api/options` endpoint
(lines 108-128 of the source): each possibly-NaN field defaults to 0. -/
def normalizeQuote (r : RawQuote) : OptionQuote where
  strike := r.strike
  lastPrice := r.lastPrice.getD 0
  bid := r.bid.getD 0
  ask := r.ask.getD 0
  volume := r.volume.getD 0
  openInterest := r.openInterest.getD 0
  impliedVolatility := r.impliedVolatility.getD 0

/-- One per-expiration chain snapshot: expiration date string, days to
expiration (`(strptime(exp) - now).days`, an integer that may be ≤ 0),
and the raw call and put rows in upstream order. -/
structure OptionChainSnapshot where
  expiration : String
  dte : ℤ
  calls : List RawQuote
  puts : List RawQuote
  deriving DecidableEq, Repr

/-- Round-half-to-even of a rational to an integer (the rounding mode of
Python `round`). -/
def roundHalfEven (q : ℚ) : ℤ :=
  let f := ⌊q⌋
  let r := q - (f : ℚ)
  if r < 1/2 then f
  else if 1/2 < r then f + 1
  else if f % 2 = 0 then f else f + 1

/-- Python `round(x, 4)`: round-half-to-even at 4 decimal places. -/
def round4 (x : ℚ) : ℚ := (roundHalfEven (x * 10000) : ℚ) / 10000

/-- The IV normalization used when the surface builder reads a raw row:
`float(row[impliedVolatility]) if not math.isnan(...) else 0`. -/
def ivNorm (q : RawQuote) : ℚ := q.impliedVolatility.getD 0

/-- Option side of a surface point (the type field: call or put). -/
inductive OptionSide where
  | call
  | put
  deriving DecidableEq, Repr

/-- One point of the IV surface as serialized by `/api/iv-surface`. -/
structure SurfacePoint where
  strike : ℚ
  moneyness : ℚ
  dte : ℤ
  iv : ℚ
  type : OptionSide
  deriving DecidableEq, Repr

/-- Per-row body of the surface loops (lines 183-207): normalize the IV,
compute moneyness = strike / spot, and emit a point iff
`0.8 <= moneyness <= 1.2 and iv > 0`, with moneyness and iv rounded to 4
decimals in the emitted point. -/
def surfaceEmit (spot : ℚ) (dte : ℤ) (side : OptionSide) (q : RawQuote) :
    Option SurfacePoint :=
  let iv := ivNorm q
  let m := q.strike / spot
  if 0.8 ≤ m ∧ m ≤ 1.2 ∧ 0 < iv then
    some { strike := q.strike, moneyness := round4 m, dte := dte,
           iv := round4 iv, type := side }
  else none

/-- Surface points contributed by one snapshot: nothing when
`dte <= 0` (the `continue`), otherwise all qualifying calls followed by
all qualifying puts, in row order. -/
def pointsOfSnapshot (s : OptionChainSnapshot) (spot : ℚ) : List SurfacePoint :=
  if s.dte ≤ 0 then []
  else
    s.calls.filterMap (surfaceEmit spot s.dte OptionSide.call) ++
      s.puts.filterMap (surfaceEmit spot s.dte OptionSide.put)

/-- The surface builder over a list of successfully fetched snapshots,
in upstream order. -/
def buildSurface (snaps : List OptionChainSnapshot) (spot : ℚ) :
    List SurfacePoint :=
  snaps.flatMap (fun s => pointsOfSnapshot s spot)

/-- The per-expiration loop of `/api/iv-surface` over fetch results at
snapshot granularity: `none` is an expiration whose processing raised
BEFORE any row was handled (strptime or the `option_chain` fetch), so
it contributes nothing (`except Exception: continue`). Row-level errors
inside a fetched snapshot are NOT representable here — they keep the
rows already appended; see `buildSurfaceF` for that finer model. -/
def buildSurfaceR (fetched : List (Option OptionChainSnapshot)) (spot : ℚ) :
    List SurfacePoint :=
  fetched.flatMap (fun os =>
    match os with
    | none => []
    | some s => pointsOfSnapshot s spot)

/-- The valid-IV call filter of the term-structure builder:
`calls[impliedVolatility].notna() & (calls[impliedVolatility] > 0)`. -/
def validPosIv (q : RawQuote) : Bool :=
  match q.impliedVolatility with
  | none => false
  | some v => decide (0 < v)

/-- One step of the left-to-right minimal-|strike - target| scan: the
strict comparison keeps the earlier row on ties. -/
def nearStep (t : ℚ) (best c : RawQuote) : RawQuote :=
  if |c.strike - t| < |best.strike - t| then c else best

/-- Embedding of `(calls_valid[strike] - price).abs().idxmin()`: the row attaining
the minimal |strike - target|; pandas `idxmin` returns the FIRST row
attaining the minimum, which this left-to-right scan with a strict
comparison reproduces. `none` on an empty list. -/
def nearestByAbs (qs : List RawQuote) (t : ℚ) : Option RawQuote :=
  match qs with
  | [] => none
  | q :: rest => some (rest.foldl (nearStep t) q)

/-- One row of the `raw` term-structure output. -/
structure TermStructureEntry where
  expiration : String
  dte : ℤ
  atm_iv : ℚ
  atm_strike : ℚ
  deriving DecidableEq, Repr

/-- Per-snapshot body of the term-structure loop (lines 248-271): skip
when `dte <= 0`; keep only calls with non-NaN, strictly positive IV; skip
when none remain; otherwise take the first call nearest to spot and emit
its IV (rounded to 4 decimals) and strike. Puts are never read. -/
def termEntryOfSnapshot (s : OptionChainSnapshot) (spot : ℚ) :
    Option TermStructureEntry :=
  if s.dte ≤ 0 then none
  else
    match nearestByAbs (s.calls.filter validPosIv) spot with
    | none => none
    | some q =>
        some { expiration := s.expiration, dte := s.dte,
               atm_iv := round4 (ivNorm q), atm_strike := q.strike }

/-- The `raw_term` list over successfully fetched snapshots. -/
def buildTermRaw (snaps : List OptionChainSnapshot) (spot : ℚ) :
    List TermStructureEntry :=
  snaps.filterMap (fun s => termEntryOfSnapshot s spot)

/-- The per-expiration loop of `/api/term-structure` over fetch results:
a failed fetch/parse contributes nothing. -/
def buildTermRawR (fetched : List (Option OptionChainSnapshot)) (spot : ℚ) :
    List TermStructureEntry :=
  fetched.filterMap (fun os => os.bind (fun s => termEntryOfSnapshot s spot))

/-- The `term_map` dict: at most one IV per tenor label, `none` when the
label is absent from the dict. -/
structure TenorMap where
  w1 : Option ℚ
  w2 : Option ℚ
  m1 : Option ℚ
  m2 : Option ℚ
  m3 : Option ℚ
  m6 : Option ℚ
  deriving DecidableEq, Repr

/-- The empty `term_map = {}`. -/
def TenorMap.empty : TenorMap :=
  { w1 := none, w2 := none, m1 := none, m2 := none, m3 := none, m6 := none }

/-- Body of the bucketing loop (lines 277-290): the `if/elif` chain, each
arm guarded by its dte range and by the bucket being still unset
(the label not yet in term_map). -/
def bucketStep (m : TenorMap) (e : TermStructureEntry) : TenorMap :=
  if e.dte ≤ 10 ∧ m.w1 = none then { m with w1 := some e.atm_iv }
  else if 10 < e.dte ∧ e.dte ≤ 20 ∧ m.w2 = none then { m with w2 := some e.atm_iv }
  else if 20 < e.dte ∧ e.dte ≤ 45 ∧ m.m1 = none then { m with m1 := some e.atm_iv }
  else if 45 < e.dte ∧ e.dte ≤ 75 ∧ m.m2 = none then { m with m2 := some e.atm_iv }
  else if 75 < e.dte ∧ e.dte ≤ 120 ∧ m.m3 = none then { m with m3 := some e.atm_iv }
  else if 120 < e.dte ∧ m.m6 = none then { m with m6 := some e.atm_iv }
  else m

/-- The tenor-bucketing pass over the raw term entries, in order. -/
def buildTermMap (entries : List TermStructureEntry) : TenorMap :=
  entries.foldl bucketStep TenorMap.empty

/-- Per-row body of the surface loops with the division modelled as a
partial operation: Python `strike / price` raises `ZeroDivisionError`
when `price == 0`, which the per-expiration `except` would turn into a
skipped snapshot. `Except.error ()` marks that raised division. -/
def surfaceEmitE (spot : ℚ) (dte : ℤ) (side : OptionSide) (q : RawQuote) :
    Except Unit (Option SurfacePoint) :=
  if spot = 0 then Except.error ()
  else
    let iv := ivNorm q
    let m := q.strike / spot
    Except.ok
      (if 0.8 ≤ m ∧ m ≤ 1.2 ∧ 0 < iv then
        some { strike := q.strike, moneyness := round4 m, dte := dte,
               iv := round4 iv, type := side }
      else none)

/-- Surface points of one snapshot with checked division: a raised
division aborts the whole snapshot (as the per-expiration `try` would). -/
def pointsOfSnapshotE (s : OptionChainSnapshot) (spot : ℚ) :
    Except Unit (List SurfacePoint) :=
  if s.dte ≤ 0 then Except.ok []
  else
    match s.calls.mapM (surfaceEmitE spot s.dte OptionSide.call) with
    | Except.error e => Except.error e
    | Except.ok cs =>
        match s.puts.mapM (surfaceEmitE spot s.dte OptionSide.put) with
        | Except.error e => Except.error e
        | Except.ok ps => Except.ok (cs.reduceOption ++ ps.reduceOption)

/-- The per-expiration surface loop with checked division: a snapshot
whose processing raised is skipped (`except Exception: continue`). -/
def buildSurfaceRE (fetched : List (Option OptionChainSnapshot)) (spot : ℚ) :
    List SurfacePoint :=
  fetched.flatMap (fun os =>
    match os with
    | none => []
    | some s =>
        match pointsOfSnapshotE s spot with
        | Except.error _ => []
        | Except.ok pts => pts)

/-- Response of `/api/iv-surface` (the fields the analytics determine):
the `error` annotation and the `surface` list. -/
structure SurfaceResponse where
  error : Option String
  surface : List SurfacePoint
  deriving DecidableEq, Repr

/-- Endpoint `/api/iv-surface` from the resolved spot onward (lines 170-217):
`if not price` — `None` or `0` — returns the annotated empty response;
otherwise the builder runs. -/
def ivSurfaceResponse (price : Option ℚ)
    (fetched : List (Option OptionChainSnapshot)) : SurfaceResponse :=
  match price with
  | none => { error := some "Cannot determine spot price", surface := [] }
  | some p =>
      if p = 0 then { error := some "Cannot determine spot price", surface := [] }
      else { error := none, surface := buildSurfaceR fetched p }

/-- Endpoint `/api/iv-surface` with the checked-division builder: the spot guard
`if not price` runs first, exactly as in `ivSurfaceResponse`. -/
def ivSurfaceResponseChecked (price : Option ℚ)
    (fetched : List (Option OptionChainSnapshot)) : SurfaceResponse :=
  match price with
  | none => { error := some "Cannot determine spot price", surface := [] }
  | some p =>
      if p = 0 then { error := some "Cannot determine spot price", surface := [] }
      else { error := none, surface := buildSurfaceRE fetched p }

/-- Response of `/api/term-structure` (the fields the analytics
determine): the `error` annotation, the bucket map and the raw entries. -/
structure TermStructureResponse where
  error : Option String
  term_structure : TenorMap
  raw : List TermStructureEntry
  deriving DecidableEq, Repr

/-- Endpoint `/api/term-structure` from the resolved spot onward (lines 242-299). -/
def termStructureResponse (price : Option ℚ)
    (fetched : List (Option OptionChainSnapshot)) : TermStructureResponse :=
  match price with
  | none => { error := some "Cannot determine spot price",
              term_structure := TenorMap.empty, raw := [] }
  | some p =>
      if p = 0 then
        { error := some "Cannot determine spot price",
          term_structure := TenorMap.empty, raw := [] }
      else
        { error := none,
          term_structure := buildTermMap (buildTermRawR fetched p),
          raw := buildTermRawR fetched p }

/-- A raw call row carrying only a strike and an IV (the fields the
analytics read); the other upstream fields are missing. -/
def mkCall (strike : ℚ) (iv : Option ℚ) : RawQuote :=
  { strike := strike, lastPrice := none, bid := none, ask := none,
    volume := none, openInterest := none, impliedVolatility := iv }

/-- A raw row whose upstream `impliedVolatility` is NaN. -/
def nanQuote : RawQuote := mkCall 100 none

/-- A snapshot whose single call has a strictly positive IV of 0.00001,
below half of the last retained decimal place. -/
def tinyIvSnap : OptionChainSnapshot :=
  { expiration := "2026-01-16", dte := 30,
    calls := [mkCall 100 (some (1/100000))], puts := [] }

/-- A snapshot with one in-band valid call and no puts. -/
def plainSnap : OptionChainSnapshot :=
  { expiration := "2026-01-16", dte := 30,
    calls := [mkCall 100 (some (1/5))], puts := [] }

/-- Variant of `plainSnap` with an extra put: identical calls, dte and expiration. -/
def plainSnapWithPut : OptionChainSnapshot :=
  { expiration := "2026-01-16", dte := 30,
    calls := [mkCall 100 (some (1/5))], puts := [mkCall 50 (some 1)] }

/-- A snapshot none of whose calls has a valid IV. -/
def noValidSnap : OptionChainSnapshot :=
  { expiration := "2026-01-16", dte := 30,
    calls := [mkCall 100 none], puts := [] }

/-- An already-expired snapshot (`dte = 0`) with a valid call. -/
def expiredSnap : OptionChainSnapshot :=
  { expiration := "2025-10-10", dte := 0,
    calls := [mkCall 100 (some (1/5))], puts := [] }

/-- A per-expiration chain snapshot at row granularity, as fetched and
before per-row numeric parsing: a `none` row is a malformed quote — one
whose numeric field parse (`float(row[...])`) raises when a loop
reaches it. A whole-snapshot fetch failure (raising before any row is
processed) is still the outer `Option FetchedSnapshot` being `none`. -/
structure FetchedSnapshot where
  expiration : String
  dte : ℤ
  calls : List (Option RawQuote)
  puts : List (Option RawQuote)
  deriving DecidableEq, Repr

/-- Row-by-row surface emission with the in-loop `surface.append` of
lines 183-207: rows are processed left to right; a malformed row raises,
which keeps the points appended so far and stops the processing of the
remaining rows. Returns the emitted points and whether a row raised. -/
def rowsEmit (spot : ℚ) (dte : ℤ) (side : OptionSide) :
    List (Option RawQuote) → List SurfacePoint × Bool
  | [] => ([], false)
  | none :: _ => ([], true)
  | some q :: rest =>
      let r := rowsEmit spot dte side rest
      ((surfaceEmit spot dte side q).toList ++ r.1, r.2)

/-- Surface points of one fetched snapshot with row-level errors: the
calls loop runs first; if it raises, the puts loop is never reached —
but the points already appended from the earlier rows stay in the
surface, because the append happens inside the per-expiration `try`. -/
def pointsOfFetched (s : FetchedSnapshot) (spot : ℚ) : List SurfacePoint :=
  if s.dte ≤ 0 then []
  else
    let c := rowsEmit spot s.dte OptionSide.call s.calls
    if c.2 then c.1
    else c.1 ++ (rowsEmit spot s.dte OptionSide.put s.puts).1

/-- Term-structure entry of one fetched snapshot: the pandas column
operations of lines 255-264 touch every call row before the single
`raw_term.append` of line 266, so a malformed call row raises before
anything is appended and the snapshot contributes no entry (atomic
skip); put rows are never read. -/
def termEntryOfFetched (s : FetchedSnapshot) (spot : ℚ) :
    Option TermStructureEntry :=
  if s.calls.any (fun r => r.isNone) then none
  else
    termEntryOfSnapshot
      { expiration := s.expiration, dte := s.dte,
        calls := s.calls.reduceOption, puts := s.puts.reduceOption } spot

/-- Lift of a fully-parsed snapshot into the fetched representation. -/
def ofSnapshot (s : OptionChainSnapshot) : FetchedSnapshot :=
  { expiration := s.expiration, dte := s.dte,
    calls := s.calls.map some, puts := s.puts.map some }

/-- The surface loop over fetch results at row granularity: a failed
fetch contributes nothing; a fetched snapshot contributes its (possibly
partial, if a row raised) points. -/
def buildSurfaceF (fetched : List (Option FetchedSnapshot)) (spot : ℚ) :
    List SurfacePoint :=
  fetched.flatMap (fun os =>
    match os with
    | none => []
    | some s => pointsOfFetched s spot)

/-- The term-structure loop over fetch results at row granularity. -/
def buildTermRawF (fetched : List (Option FetchedSnapshot)) (spot : ℚ) :
    List TermStructureEntry :=
  fetched.filterMap (fun os => os.bind (fun s => termEntryOfFetched s spot))

/-- A fetched snapshot whose second call row is malformed: the first
call is in-band with valid IV, the third call and the put would also
qualify, but everything from the malformed row on is lost. -/
def malformedSnap : FetchedSnapshot :=
  { expiration := "2026-01-16", dte := 30,
    calls := [some (mkCall 100 (some (1/5))), none,
              some (mkCall 105 (some (1/4)))],
    puts := [some (mkCall 95 (some (3/10)))] }

theorem roundHalfEven_ge_floor (q : ℚ) : ⌊q⌋ ≤ roundHalfEven q := by
  unfold roundHalfEven
  dsimp only
  split_ifs <;> omega

theorem roundHalfEven_le_of_le {q : ℚ} {n : ℤ} (h : q ≤ (n : ℚ)) :
    roundHalfEven q ≤ n := by
  have hf : ⌊q⌋ ≤ n := by
    have := Int.floor_le_floor h
    simpa using this
  have hlt : ¬ q - (⌊q⌋ : ℚ) < 1/2 → ⌊q⌋ < n := by
    intro hr
    have hq : (⌊q⌋ : ℚ) < q := by
      push_neg at hr
      linarith
    have : (⌊q⌋ : ℚ) < (n : ℚ) := lt_of_lt_of_le hq h
    exact_mod_cast this
  unfold roundHalfEven
  dsimp only
  split_ifs with h1 h2 h3
  · exact hf
  · have := hlt h1
    omega
  · exact hf
  · have := hlt h1
    omega

theorem roundHalfEven_ge_of_le {q : ℚ} {n : ℤ} (h : (n : ℚ) ≤ q) :
    n ≤ roundHalfEven q :=
  le_trans (Int.le_floor.mpr h) (roundHalfEven_ge_floor q)

theorem round4_band {x : ℚ} (h1 : 0.8 ≤ x) (h2 : x ≤ 1.2) :
    0.8 ≤ round4 x ∧ round4 x ≤ 1.2 := by
  have l1 : ((8000 : ℤ) : ℚ) ≤ x * 10000 := by push_cast; linarith
  have l2 : x * 10000 ≤ ((12000 : ℤ) : ℚ) := by push_cast; linarith
  have r1 : (8000 : ℤ) ≤ roundHalfEven (x * 10000) := roundHalfEven_ge_of_le l1
  have r2 : roundHalfEven (x * 10000) ≤ 12000 := roundHalfEven_le_of_le l2
  unfold round4
  constructor
  · rw [le_div_iff₀ (by norm_num)]
    calc (0.8 : ℚ) * 10000 = ((8000 : ℤ) : ℚ) := by norm_num
      _ ≤ _ := by exact_mod_cast r1
  · rw [div_le_iff₀ (by norm_num)]
    calc ((roundHalfEven (x * 10000) : ℤ) : ℚ) ≤ ((12000 : ℤ) : ℚ) := by
          exact_mod_cast r2
      _ = (1.2 : ℚ) * 10000 := by norm_num

theorem round4_nonneg {x : ℚ} (h : 0 ≤ x) : 0 ≤ round4 x := by
  have l0 : ((0 : ℤ) : ℚ) ≤ x * 10000 := by
    push_cast
    nlinarith
  have r0 : (0 : ℤ) ≤ roundHalfEven (x * 10000) := roundHalfEven_ge_of_le l0
  unfold round4
  apply div_nonneg _ (by norm_num)
  exact_mod_cast r0

theorem ivNorm_pos_iff {q : RawQuote} :
    0 < ivNorm q ↔ ∃ v, q.impliedVolatility = some v ∧ 0 < v := by
  unfold ivNorm
  cases h : q.impliedVolatility <;> simp [h]

theorem validPosIv_iff {q : RawQuote} :
    validPosIv q = true ↔ ∃ v, q.impliedVolatility = some v ∧ 0 < v := by
  unfold validPosIv
  cases h : q.impliedVolatility <;> simp [h]

theorem foldl_nearStep_spec (t : ℚ) :
    ∀ (qs : List RawQuote) (q : RawQuote),
      (qs.foldl (nearStep t) q = q ∧
        ∀ c ∈ qs, |q.strike - t| ≤ |c.strike - t|) ∨
      (∃ l1 l2, qs = l1 ++ qs.foldl (nearStep t) q :: l2 ∧
        |(qs.foldl (nearStep t) q).strike - t| < |q.strike - t| ∧
        (∀ c ∈ l1, |(qs.foldl (nearStep t) q).strike - t| < |c.strike - t|) ∧
        (∀ c ∈ l2, |(qs.foldl (nearStep t) q).strike - t| ≤ |c.strike - t|)) := by
  intro qs
  induction qs with
  | nil =>
      intro q
      left
      exact ⟨rfl, by simp⟩
  | cons c cs ih =>
      intro q
      rw [List.foldl_cons]
      by_cases hc : |c.strike - t| < |q.strike - t|
      · have hstep : nearStep t q c = c := by simp [nearStep, hc]
        rw [hstep]
        rcases ih c with ⟨heq, hall⟩ | ⟨l1, l2, hsplit, hlt, hbefore, hafter⟩
        · right
          refine ⟨[], cs, ?_, ?_, by simp, ?_⟩
          · simp [heq]
          · rw [heq]; exact hc
          · rw [heq]; exact hall
        · right
          refine ⟨c :: l1, l2, ?_, lt_trans hlt hc, ?_, hafter⟩
          · rw [List.cons_append, ← hsplit]
          · intro x hx
            rcases List.mem_cons.mp hx with rfl | hx
            · exact hlt
            · exact hbefore x hx
      · have hstep : nearStep t q c = q := by simp [nearStep, hc]
        rw [hstep]
        rcases ih q with ⟨heq, hall⟩ | ⟨l1, l2, hsplit, hlt, hbefore, hafter⟩
        · left
          refine ⟨heq, ?_⟩
          intro x hx
          rcases List.mem_cons.mp hx with rfl | hx
          · exact not_lt.mp hc
          · exact hall x hx
        · right
          refine ⟨c :: l1, l2, ?_, hlt, ?_, hafter⟩
          · rw [List.cons_append, ← hsplit]
          · intro x hx
            rcases List.mem_cons.mp hx with rfl | hx
            · exact lt_of_lt_of_le hlt (not_lt.mp hc)
            · exact hbefore x hx

theorem bucketStep_w1 (m : TenorMap) (e : TermStructureEntry) :
    (bucketStep m e).w1 =
      if e.dte ≤ 10 ∧ m.w1 = none then some e.atm_iv else m.w1 := by
  unfold bucketStep
  split_ifs <;> simp_all <;> omega

theorem bucketStep_w2 (m : TenorMap) (e : TermStructureEntry) :
    (bucketStep m e).w2 =
      if (10 < e.dte ∧ e.dte ≤ 20) ∧ m.w2 = none then some e.atm_iv else m.w2 := by
  unfold bucketStep
  split_ifs <;> simp_all <;> omega

theorem bucketStep_m1 (m : TenorMap) (e : TermStructureEntry) :
    (bucketStep m e).m1 =
      if (20 < e.dte ∧ e.dte ≤ 45) ∧ m.m1 = none then some e.atm_iv else m.m1 := by
  unfold bucketStep
  split_ifs <;> simp_all <;> omega

theorem bucketStep_m2 (m : TenorMap) (e : TermStructureEntry) :
    (bucketStep m e).m2 =
      if (45 < e.dte ∧ e.dte ≤ 75) ∧ m.m2 = none then some e.atm_iv else m.m2 := by
  unfold bucketStep
  split_ifs <;> simp_all <;> omega

theorem bucketStep_m3 (m : TenorMap) (e : TermStructureEntry) :
    (bucketStep m e).m3 =
      if (75 < e.dte ∧ e.dte ≤ 120) ∧ m.m3 = none then some e.atm_iv else m.m3 := by
  unfold bucketStep
  split_ifs <;> simp_all <;> omega

theorem bucketStep_m6 (m : TenorMap) (e : TermStructureEntry) :
    (bucketStep m e).m6 =
      if 120 < e.dte ∧ m.m6 = none then some e.atm_iv else m.m6 := by
  unfold bucketStep
  split_ifs <;> simp_all <;> omega

theorem foldl_bucketStep_field (get : TenorMap → Option ℚ)
    (p : TermStructureEntry → Bool)
    (hstep : ∀ m e, get (bucketStep m e) =
      if p e = true ∧ get m = none then some e.atm_iv else get m) :
    ∀ (es : List TermStructureEntry) (m : TenorMap),
      get (es.foldl bucketStep m) =
        (get m).or ((es.find? p).map TermStructureEntry.atm_iv) := by
  intro es
  induction es with
  | nil =>
      intro m
      cases hgm : get m <;> simp [hgm]
  | cons e es ih =>
      intro m
      rw [List.foldl_cons, ih, hstep]
      cases hp : p e with
      | true =>
          rw [List.find?_cons_of_pos _ hp]
          cases hgm : get m <;> simp [hp, hgm]
      | false =>
          rw [List.find?_cons_of_neg]
          · simp [hp]
          · simp [hp]

theorem surfaceEmit_eq_some {spot : ℚ} {dte : ℤ} {side : OptionSide}
    {q : RawQuote} {pt : SurfacePoint} :
    surfaceEmit spot dte side q = some pt ↔
      (0.8 ≤ q.strike / spot ∧ q.strike / spot ≤ 1.2 ∧ 0 < ivNorm q) ∧
        pt = { strike := q.strike, moneyness := round4 (q.strike / spot),
               dte := dte, iv := round4 (ivNorm q), type := side } := by
  unfold surfaceEmit
  dsimp only
  split_ifs with h
  · simp only [Option.some_inj]
    exact ⟨fun he => ⟨h, he.symm⟩, fun ⟨_, he⟩ => he.symm⟩
  · simp [h]

theorem nearestByAbs_mem {qs : List RawQuote} {t : ℚ} {q : RawQuote}
    (h : nearestByAbs qs t = some q) : q ∈ qs := by
  match qs with
  | [] => simp [nearestByAbs] at h
  | q0 :: rest =>
      have hq : rest.foldl (nearStep t) q0 = q := by
        simpa [nearestByAbs] using h
      rcases foldl_nearStep_spec t rest q0 with ⟨heq, -⟩ | ⟨l1, l2, hsplit, -, -, -⟩
      · rw [← hq, heq]
        exact List.mem_cons_self _ _
      · have hmem : rest.foldl (nearStep t) q0 ∈
            l1 ++ rest.foldl (nearStep t) q0 :: l2 :=
          List.mem_append_right _ (List.mem_cons_self _ _)
        rw [← hsplit] at hmem
        rw [← hq]
        exact List.mem_cons_of_mem _ hmem

/-- C1 — counterexample: the claim says a missing (NaN) upstream IV is
normalized to an invalid marker *distinct from 0*; but on a raw quote
whose IV is missing, both the `/api/options` normalization and the
surface builder's per-row normalization produce exactly 0. -/
theorem C1_counterexample :
    (normalizeQuote nanQuote).impliedVolatility = 0 ∧ ivNorm nanQuote = 0 := by
  constructor
  · simp [normalizeQuote, nanQuote, mkCall]
  · simp [ivNorm, nanQuote, mkCall]

/-- C1 (amended): a missing upstream IV is normalized to the value 0 —
not to a marker distinct from 0 — in the chain handed downstream; the
downstream consumers treat 0 as invalid, so such a quote never passes
the valid-IV filter of either builder and never yields a surface point. -/
theorem C1_missing_iv_normalized_to_zero (r : RawQuote)
    (h : r.impliedVolatility = none) :
    (normalizeQuote r).impliedVolatility = 0 ∧ ivNorm r = 0 ∧
      validPosIv r = false ∧
      ∀ (spot : ℚ) (dte : ℤ) (side : OptionSide),
        surfaceEmit spot dte side r = none := by
  refine ⟨?_, ?_, ?_, ?_⟩
  · simp [normalizeQuote, h]
  · simp [ivNorm, h]
  · simp [validPosIv, h]
  · intro spot dte side
    simp [surfaceEmit, ivNorm, h]

/-- C1 — witness: the amendment at the concrete NaN-IV quote. -/
theorem C1_witness :
    (normalizeQuote nanQuote).impliedVolatility = 0 ∧ ivNorm nanQuote = 0 ∧
      validPosIv nanQuote = false ∧
      ∀ (spot : ℚ) (dte : ℤ) (side : OptionSide),
        surfaceEmit spot dte side nanQuote = none :=
  C1_missing_iv_normalized_to_zero nanQuote rfl

/-- C6: a snapshot with `daysToExpiration ≤ 0` contributes no
SurfacePoint and no TermStructureEntry. -/
theorem C6_expired_snapshot_no_output (s : OptionChainSnapshot) (spot : ℚ)
    (h : s.dte ≤ 0) :
    pointsOfSnapshot s spot = [] ∧ termEntryOfSnapshot s spot = none := by
  constructor
  · simp [pointsOfSnapshot, h]
  · simp [termEntryOfSnapshot, h]

/-- C6 — witness: the dte = 0 snapshot with a valid call produces
nothing in either builder. -/
theorem C6_witness :
    pointsOfSnapshot expiredSnap 100 = [] ∧
      termEntryOfSnapshot expiredSnap 100 = none :=
  C6_expired_snapshot_no_output expiredSnap 100 (by norm_num [expiredSnap])

/-- C8: when the spot price cannot be determined, neither builder runs:
both endpoints return an empty result annotated with the
"Cannot determine spot price" condition (and, being total functions,
raise nothing). -/
theorem C8_unresolved_spot (fetched : List (Option OptionChainSnapshot)) :
    ivSurfaceResponse none fetched =
      { error := some "Cannot determine spot price", surface := [] } ∧
    termStructureResponse none fetched =
      { error := some "Cannot determine spot price",
        term_structure := TenorMap.empty, raw := [] } :=
  ⟨rfl, rfl⟩

theorem rowsEmit_parsed (spot : ℚ) (dte : ℤ) (side : OptionSide)
    (l : List RawQuote) :
    rowsEmit spot dte side (l.map some) =
      (l.filterMap (surfaceEmit spot dte side), false) := by
  induction l with
  | nil => rfl
  | cons q l ih =>
      simp only [List.map_cons, rowsEmit, ih, List.filterMap_cons]
      cases surfaceEmit spot dte side q <;> simp

theorem rowsEmit_parsed_prefix (spot : ℚ) (dte : ℤ) (side : OptionSide)
    (good : List RawQuote) (rest : List (Option RawQuote)) :
    rowsEmit spot dte side (good.map some ++ none :: rest) =
      (good.filterMap (surfaceEmit spot dte side), true) := by
  induction good with
  | nil => rfl
  | cons q good ih =>
      simp only [List.map_cons, List.cons_append, rowsEmit, List.filterMap_cons,
        List.append_eq]
      rw [ih]
      cases surfaceEmit spot dte side q <;> simp

theorem reduceOption_map_some {α : Type} (l : List α) :
    (l.map some).reduceOption = l := by
  induction l with
  | nil => rfl
  | cons a l ih => simp [List.reduceOption, ih]

/-- C9 — counterexample: the claim says a malformed quote causes only
its snapshot to be skipped, the outputs being identical to the run
without it. But on a snapshot whose second call row is malformed, the
surface keeps the point already appended from the first call (the
append is row-by-row inside the per-expiration try), so the output is
not identical to the run without the failing snapshot, which is empty. -/
theorem C9_counterexample :
    buildSurfaceF [some malformedSnap] 100 =
      [{ strike := 100, moneyness := 1, dte := 30, iv := 1/5,
         type := OptionSide.call }] ∧
    buildSurfaceF [] 100 = [] := by
  constructor
  · norm_num [buildSurfaceF, malformedSnap, pointsOfFetched, rowsEmit,
      surfaceEmit, mkCall, ivNorm, round4, roundHalfEven]
  · rfl

/-- C9 (amended): no per-snapshot failure ever aborts the computation
or affects other snapshots. (i) A fetch failure — raising before any
row is processed — is skipped entirely, outputs identical to the run
without it, buckets included. (ii) Any snapshot contributes exactly its
own segment: the surrounding snapshots' outputs are unchanged whatever
happens inside it. (iii) A malformed quote mid-snapshot, however, does
not skip the snapshot entirely in the surface builder: the points of
the parsed calls before the malformed row stay in the surface (and the
puts are never reached), while the term structure, whose single append
follows all column reads, skips the snapshot atomically. (iv) On
snapshots without malformed rows both builders behave as the plain
per-snapshot functions. -/
theorem C9_failure_isolation_row_level :
    ∀ (pre post : List (Option FetchedSnapshot)) (spot : ℚ),
      (buildSurfaceF (pre ++ none :: post) spot =
          buildSurfaceF (pre ++ post) spot ∧
        buildTermRawF (pre ++ none :: post) spot =
          buildTermRawF (pre ++ post) spot ∧
        buildTermMap (buildTermRawF (pre ++ none :: post) spot) =
          buildTermMap (buildTermRawF (pre ++ post) spot)) ∧
      (∀ s : FetchedSnapshot,
        buildSurfaceF (pre ++ some s :: post) spot =
          buildSurfaceF pre spot ++ pointsOfFetched s spot ++
            buildSurfaceF post spot ∧
        buildTermRawF (pre ++ some s :: post) spot =
          buildTermRawF pre spot ++ (termEntryOfFetched s spot).toList ++
            buildTermRawF post spot) ∧
      (∀ (s : FetchedSnapshot) (good : List RawQuote)
          (rest : List (Option RawQuote)),
        s.calls = good.map some ++ none :: rest → 0 < s.dte →
        pointsOfFetched s spot =
          good.filterMap (surfaceEmit spot s.dte OptionSide.call) ∧
        termEntryOfFetched s spot = none) ∧
      (∀ s : OptionChainSnapshot,
        pointsOfFetched (ofSnapshot s) spot = pointsOfSnapshot s spot ∧
        termEntryOfFetched (ofSnapshot s) spot = termEntryOfSnapshot s spot) := by
  intro pre post spot
  refine ⟨⟨?_, ?_, ?_⟩, ?_, ?_, ?_⟩
  · simp [buildSurfaceF]
  · simp [buildTermRawF]
  · have h2 : buildTermRawF (pre ++ none :: post) spot =
        buildTermRawF (pre ++ post) spot := by
      simp [buildTermRawF]
    exact congrArg buildTermMap h2
  · intro s
    constructor
    · simp [buildSurfaceF]
    · cases ht : termEntryOfFetched s spot <;> simp [buildTermRawF, ht]
  · intro s good rest hcalls hdte
    constructor
    · unfold pointsOfFetched
      rw [if_neg (by omega), hcalls, rowsEmit_parsed_prefix]
      simp
    · unfold termEntryOfFetched
      have hany : s.calls.any (fun r => r.isNone) = true := by
        rw [hcalls]
        simp
      rw [if_pos hany]
  · intro s
    constructor
    · unfold pointsOfFetched pointsOfSnapshot ofSnapshot
      dsimp only
      rw [rowsEmit_parsed, rowsEmit_parsed]
      simp
    · unfold termEntryOfFetched ofSnapshot
      dsimp only
      rw [if_neg (by simp)]
      rw [reduceOption_map_some, reduceOption_map_some]

/-- C9 — witness: the amended partial-prefix behavior at the concrete
snapshot whose second call row is malformed. -/
theorem C9_witness :
    pointsOfFetched malformedSnap 100 =
      [mkCall 100 (some (1/5))].filterMap
        (surfaceEmit 100 30 OptionSide.call) ∧
    termEntryOfFetched malformedSnap 100 = none :=
  (C9_failure_isolation_row_level [] [] 100).2.2.1 malformedSnap
    [mkCall 100 (some (1/5))] [some (mkCall 105 (some (1/4)))] rfl
    (by norm_num [malformedSnap])

/-- C2 — counterexample: the claim's consequent "every produced
SurfacePoint has iv > 0" fails on the emitted field: a call with raw IV
0.00001 (> 0, so it passes the filter) yields a SurfacePoint whose
serialized `iv` — the raw IV rounded to 4 decimals — is exactly 0. -/
theorem C2_counterexample :
    buildSurface [tinyIvSnap] 100 =
      [{ strike := 100, moneyness := 1, dte := 30, iv := 0,
         type := OptionSide.call }] := by
  norm_num [buildSurface, tinyIvSnap, pointsOfSnapshot, surfaceEmit, mkCall,
    ivNorm, round4, roundHalfEven, List.filterMap_cons]

/-- C2 (amended): a quote produces a SurfacePoint iff its snapshot's dte
is > 0, its IV is valid (non-NaN) and strictly positive, and its raw
moneyness strike/spot lies in [0.8, 1.2]; every produced point has
0.8 ≤ moneyness ≤ 1.2, but its emitted `iv` field (the raw IV rounded to
4 decimals) is only guaranteed ≥ 0 — strict positivity holds for the raw
IV of the producing quote, not for the rounded field. -/
theorem C2_surface_characterization (snaps : List OptionChainSnapshot)
    (spot : ℚ) (hspot : 0 < spot) :
    (∀ pt, pt ∈ buildSurface snaps spot ↔
      ∃ s ∈ snaps, 0 < s.dte ∧
        ((∃ q ∈ s.calls,
            (0.8 ≤ q.strike / spot ∧ q.strike / spot ≤ 1.2 ∧
              ∃ v, q.impliedVolatility = some v ∧ 0 < v) ∧
            pt = { strike := q.strike, moneyness := round4 (q.strike / spot),
                   dte := s.dte, iv := round4 (ivNorm q),
                   type := OptionSide.call }) ∨
          (∃ q ∈ s.puts,
            (0.8 ≤ q.strike / spot ∧ q.strike / spot ≤ 1.2 ∧
              ∃ v, q.impliedVolatility = some v ∧ 0 < v) ∧
            pt = { strike := q.strike, moneyness := round4 (q.strike / spot),
                   dte := s.dte, iv := round4 (ivNorm q),
                   type := OptionSide.put }))) ∧
    ∀ pt ∈ buildSurface snaps spot,
      0.8 ≤ pt.moneyness ∧ pt.moneyness ≤ 1.2 ∧ 0 ≤ pt.iv := by
  have hchar : ∀ pt, pt ∈ buildSurface snaps spot ↔
      ∃ s ∈ snaps, 0 < s.dte ∧
        ((∃ q ∈ s.calls,
            (0.8 ≤ q.strike / spot ∧ q.strike / spot ≤ 1.2 ∧
              ∃ v, q.impliedVolatility = some v ∧ 0 < v) ∧
            pt = { strike := q.strike, moneyness := round4 (q.strike / spot),
                   dte := s.dte, iv := round4 (ivNorm q),
                   type := OptionSide.call }) ∨
          (∃ q ∈ s.puts,
            (0.8 ≤ q.strike / spot ∧ q.strike / spot ≤ 1.2 ∧
              ∃ v, q.impliedVolatility = some v ∧ 0 < v) ∧
            pt = { strike := q.strike, moneyness := round4 (q.strike / spot),
                   dte := s.dte, iv := round4 (ivNorm q),
                   type := OptionSide.put })) := by
    intro pt
    simp only [buildSurface, List.mem_flatMap]
    refine exists_congr fun s => and_congr_right fun _ => ?_
    unfold pointsOfSnapshot
    split_ifs with hd
    · constructor
      · intro hx
        exact absurd hx (List.not_mem_nil pt)
      · rintro ⟨hdte, -⟩
        omega
    · have hd' : 0 < s.dte := by omega
      simp only [List.mem_append, List.mem_filterMap, surfaceEmit_eq_some,
        ivNorm_pos_iff, hd', true_and]
  refine ⟨hchar, ?_⟩
  intro pt hpt
  have key : ∀ (q : RawQuote) (d : ℤ) (side : OptionSide),
      (0.8 ≤ q.strike / spot ∧ q.strike / spot ≤ 1.2 ∧
        ∃ v, q.impliedVolatility = some v ∧ 0 < v) →
      pt = { strike := q.strike, moneyness := round4 (q.strike / spot),
             dte := d, iv := round4 (ivNorm q), type := side } →
      0.8 ≤ pt.moneyness ∧ pt.moneyness ≤ 1.2 ∧ 0 ≤ pt.iv := by
    rintro q d side ⟨hb1, hb2, v, hv, hvpos⟩ rfl
    refine ⟨(round4_band hb1 hb2).1, (round4_band hb1 hb2).2, ?_⟩
    have hivq : ivNorm q = v := by simp [ivNorm, hv]
    show 0 ≤ round4 (ivNorm q)
    rw [hivq]
    exact round4_nonneg (le_of_lt hvpos)
  rcases (hchar pt).mp hpt with ⟨s, _, _, hcase⟩
  rcases hcase with ⟨q, _, hcond, hpt'⟩ | ⟨q, _, hcond, hpt'⟩
  · exact key q s.dte OptionSide.call hcond hpt'
  · exact key q s.dte OptionSide.put hcond hpt'

/-- C2 — witness: the produced-point bounds at the concrete point that
the one-call snapshot emits at spot 100. -/
theorem C2_witness :
    0.8 ≤ ({ strike := 100, moneyness := 1, dte := 30, iv := 1/5,
             type := OptionSide.call } : SurfacePoint).moneyness ∧
    ({ strike := 100, moneyness := 1, dte := 30, iv := 1/5,
       type := OptionSide.call } : SurfacePoint).moneyness ≤ 1.2 ∧
    0 ≤ ({ strike := 100, moneyness := 1, dte := 30, iv := 1/5,
           type := OptionSide.call } : SurfacePoint).iv :=
  (C2_surface_characterization [plainSnap] 100 (by norm_num)).2
    { strike := 100, moneyness := 1, dte := 30, iv := 1/5,
      type := OptionSide.call }
    (by norm_num [buildSurface, plainSnap, pointsOfSnapshot, surfaceEmit,
      mkCall, ivNorm, round4, roundHalfEven, List.filterMap_cons])

/-- C3: each entry's dte falls in exactly one of the six disjoint tenor
ranges (last conjunct), and each bucket holds the `atm_iv` of the FIRST
entry in input order whose dte is in its range — `none` (absent) when no
entry qualifies, later qualifying entries being discarded. -/
theorem C3_tenor_buckets (es : List TermStructureEntry) :
    (buildTermMap es).w1 =
      (es.find? (fun e => decide (e.dte ≤ 10))).map TermStructureEntry.atm_iv ∧
    (buildTermMap es).w2 =
      (es.find? (fun e => decide (10 < e.dte ∧ e.dte ≤ 20))).map
        TermStructureEntry.atm_iv ∧
    (buildTermMap es).m1 =
      (es.find? (fun e => decide (20 < e.dte ∧ e.dte ≤ 45))).map
        TermStructureEntry.atm_iv ∧
    (buildTermMap es).m2 =
      (es.find? (fun e => decide (45 < e.dte ∧ e.dte ≤ 75))).map
        TermStructureEntry.atm_iv ∧
    (buildTermMap es).m3 =
      (es.find? (fun e => decide (75 < e.dte ∧ e.dte ≤ 120))).map
        TermStructureEntry.atm_iv ∧
    (buildTermMap es).m6 =
      (es.find? (fun e => decide (120 < e.dte))).map TermStructureEntry.atm_iv ∧
    ∀ d : ℤ,
      ((if d ≤ 10 then 1 else 0) + (if 10 < d ∧ d ≤ 20 then 1 else 0) +
        (if 20 < d ∧ d ≤ 45 then 1 else 0) + (if 45 < d ∧ d ≤ 75 then 1 else 0) +
        (if 75 < d ∧ d ≤ 120 then 1 else 0) + (if 120 < d then 1 else 0) : ℤ) = 1 := by
  refine ⟨?_, ?_, ?_, ?_, ?_, ?_, ?_⟩
  · have h := foldl_bucketStep_field TenorMap.w1 (fun e => decide (e.dte ≤ 10))
      (fun m e => by rw [bucketStep_w1]; simp) es TenorMap.empty
    simpa [buildTermMap, TenorMap.empty] using h
  · have h := foldl_bucketStep_field TenorMap.w2
      (fun e => decide (10 < e.dte ∧ e.dte ≤ 20))
      (fun m e => by rw [bucketStep_w2]; simp) es TenorMap.empty
    simpa [buildTermMap, TenorMap.empty] using h
  · have h := foldl_bucketStep_field TenorMap.m1
      (fun e => decide (20 < e.dte ∧ e.dte ≤ 45))
      (fun m e => by rw [bucketStep_m1]; simp) es TenorMap.empty
    simpa [buildTermMap, TenorMap.empty] using h
  · have h := foldl_bucketStep_field TenorMap.m2
      (fun e => decide (45 < e.dte ∧ e.dte ≤ 75))
      (fun m e => by rw [bucketStep_m2]; simp) es TenorMap.empty
    simpa [buildTermMap, TenorMap.empty] using h
  · have h := foldl_bucketStep_field TenorMap.m3
      (fun e => decide (75 < e.dte ∧ e.dte ≤ 120))
      (fun m e => by rw [bucketStep_m3]; simp) es TenorMap.empty
    simpa [buildTermMap, TenorMap.empty] using h
  · have h := foldl_bucketStep_field TenorMap.m6 (fun e => decide (120 < e.dte))
      (fun m e => by rw [bucketStep_m6]; simp) es TenorMap.empty
    simpa [buildTermMap, TenorMap.empty] using h
  · intro d
    split_ifs <;> omega

/-- C4: on a non-empty list of quotes the ATM selection returns a quote
that minimizes |strike - target| and is the FIRST such quote in
iteration order (every quote strictly before it has strictly larger
distance). -/
theorem C4_atm_first_minimum (qs : List RawQuote) (t : ℚ) (h : qs ≠ []) :
    ∃ r l1 l2, nearestByAbs qs t = some r ∧ qs = l1 ++ r :: l2 ∧
      (∀ c ∈ qs, |r.strike - t| ≤ |c.strike - t|) ∧
      (∀ c ∈ l1, |r.strike - t| < |c.strike - t|) := by
  match qs with
  | [] => exact absurd rfl h
  | q :: rest =>
      rcases foldl_nearStep_spec t rest q with
        ⟨heq, hall⟩ | ⟨l1, l2, hsplit, hlt, hbefore, hafter⟩
      · refine ⟨q, [], rest, ?_, rfl, ?_, by simp⟩
        · simp [nearestByAbs, heq]
        · intro c hc
          rcases List.mem_cons.mp hc with rfl | hc
          · exact le_refl _
          · exact hall c hc
      · refine ⟨rest.foldl (nearStep t) q, q :: l1, l2, rfl, ?_, ?_, ?_⟩
        · rw [List.cons_append, ← hsplit]
        · intro c hc
          rcases List.mem_cons.mp hc with rfl | hc
          · exact le_of_lt hlt
          · have hc' : c ∈ l1 ++ rest.foldl (nearStep t) q :: l2 := by
              rw [← hsplit]; exact hc
            rcases List.mem_append.mp hc' with hc1 | hc2
            · exact le_of_lt (hbefore c hc1)
            · rcases List.mem_cons.mp hc2 with rfl | hc2
              · exact le_refl _
              · exact hafter c hc2
        · intro c hc
          rcases List.mem_cons.mp hc with rfl | hc
          · exact hlt
          · exact hbefore c hc

/-- C4 — witness: with calls at strikes 99 and 101 and target 100 the
selection is the first of the two tied quotes. -/
theorem C4_witness :
    ∃ r l1 l2,
      nearestByAbs [mkCall 99 (some 1), mkCall 101 (some 1)] 100 = some r ∧
      [mkCall 99 (some 1), mkCall 101 (some 1)] = l1 ++ r :: l2 ∧
      (∀ c ∈ [mkCall 99 (some 1), mkCall 101 (some 1)],
        |r.strike - 100| ≤ |c.strike - 100|) ∧
      (∀ c ∈ l1, |r.strike - 100| < |c.strike - 100|) :=
  C4_atm_first_minimum [mkCall 99 (some 1), mkCall 101 (some 1)] 100 (by simp)

/-- C5: a TermStructureEntry is computed only from the snapshot's calls
with valid, strictly-positive IV — no surviving call means no entry;
the entry's fields come from a surviving call; and the puts are never
consulted (two snapshots differing only in their puts yield the same
entry). -/
theorem C5_term_entry_calls_only (s s' : OptionChainSnapshot) (spot : ℚ) :
    (s.calls.filter validPosIv = [] → termEntryOfSnapshot s spot = none) ∧
    (s.expiration = s'.expiration → s.dte = s'.dte → s.calls = s'.calls →
      termEntryOfSnapshot s spot = termEntryOfSnapshot s' spot) ∧
    (∀ e, termEntryOfSnapshot s spot = some e →
      ∃ q, q ∈ s.calls ∧ validPosIv q = true ∧
        e.atm_iv = round4 (ivNorm q) ∧ e.atm_strike = q.strike) := by
  refine ⟨?_, ?_, ?_⟩
  · intro h
    unfold termEntryOfSnapshot
    rw [h]
    split_ifs <;> rfl
  · intro h1 h2 h3
    unfold termEntryOfSnapshot
    rw [h1, h2, h3]
  · intro e he
    unfold termEntryOfSnapshot at he
    split_ifs at he with hd
    cases hn : nearestByAbs (s.calls.filter validPosIv) spot with
    | none => rw [hn] at he; simp at he
    | some q =>
        rw [hn] at he
        have hq := nearestByAbs_mem hn
        have hq' := List.mem_filter.mp hq
        refine ⟨q, hq'.1, hq'.2, ?_, ?_⟩
        · rw [← Option.some_inj.mp he]
        · rw [← Option.some_inj.mp he]

/-- C5 — witness: a snapshot with no valid-IV call yields no entry, and
adding a put to a snapshot leaves its entry unchanged. -/
theorem C5_witness :
    termEntryOfSnapshot noValidSnap 100 = none ∧
      termEntryOfSnapshot plainSnap 100 = termEntryOfSnapshot plainSnapWithPut 100 :=
  ⟨(C5_term_entry_calls_only noValidSnap noValidSnap 100).1
      (by simp [noValidSnap, mkCall, validPosIv]),
    (C5_term_entry_calls_only plainSnap plainSnapWithPut 100).2.1 rfl rfl rfl⟩

/-- C7: the moneyness band and the ATM selection are independent: a
snapshot whose only call sits at strike 150 with spot 100 (moneyness
1.5, out of band) contributes nothing to the surface, yet that same call
is selected as the ATM candidate of the term structure. -/
theorem C7_band_and_atm_independent (ex : String) (dte : ℤ) (iv : ℚ)
    (hdte : 0 < dte) (hiv : 0 < iv) :
    pointsOfSnapshot
        { expiration := ex, dte := dte,
          calls := [mkCall 150 (some iv)], puts := [] } 100 = [] ∧
    termEntryOfSnapshot
        { expiration := ex, dte := dte,
          calls := [mkCall 150 (some iv)], puts := [] } 100 =
      some { expiration := ex, dte := dte, atm_iv := round4 iv,
             atm_strike := 150 } := by
  constructor
  · unfold pointsOfSnapshot
    rw [if_neg (not_le.mpr hdte)]
    norm_num [surfaceEmit, mkCall, ivNorm, List.filterMap_cons]
  · unfold termEntryOfSnapshot
    rw [if_neg (not_le.mpr hdte)]
    simp [validPosIv, mkCall, hiv, nearestByAbs, ivNorm, List.filter]

/-- C7 — witness: the independence scenario at iv = 0.25, dte = 30. -/
theorem C7_witness :
    pointsOfSnapshot
        { expiration := "2026-01-16", dte := 30,
          calls := [mkCall 150 (some (1/4))], puts := [] } 100 = [] ∧
    termEntryOfSnapshot
        { expiration := "2026-01-16", dte := 30,
          calls := [mkCall 150 (some (1/4))], puts := [] } 100 =
      some { expiration := "2026-01-16", dte := 30, atm_iv := round4 (1/4),
             atm_strike := 150 } :=
  C7_band_and_atm_independent "2026-01-16" 30 (1/4) (by norm_num) (by norm_num)

theorem surfaceEmitE_ok {spot : ℚ} (h : spot ≠ 0) (dte : ℤ)
    (side : OptionSide) (q : RawQuote) :
    surfaceEmitE spot dte side q = Except.ok (surfaceEmit spot dte side q) := by
  unfold surfaceEmitE surfaceEmit
  rw [if_neg h]

theorem mapM_surfaceEmitE {spot : ℚ} (h : spot ≠ 0) (dte : ℤ)
    (side : OptionSide) (l : List RawQuote) :
    l.mapM (surfaceEmitE spot dte side) =
      Except.ok (l.map (surfaceEmit spot dte side)) := by
  induction l with
  | nil => rfl
  | cons q l ih =>
      rw [List.mapM_cons, surfaceEmitE_ok h, ih]
      rfl

theorem pointsOfSnapshotE_ok (s : OptionChainSnapshot) {spot : ℚ}
    (h : spot ≠ 0) :
    pointsOfSnapshotE s spot = Except.ok (pointsOfSnapshot s spot) := by
  unfold pointsOfSnapshotE pointsOfSnapshot
  split_ifs with hd
  · rfl
  · rw [mapM_surfaceEmitE h, mapM_surfaceEmitE h]
    simp [List.reduceOption, List.filterMap_map]

/-- C10: the moneyness division is reached only under the non-zero spot
guard: with checked division, processing any snapshot at a non-zero spot
never takes the division-by-zero branch, and the full endpoint with
checked division coincides with the endpoint as embedded — the
division-by-zero branch is unreachable for every input. -/
theorem C10_div_by_zero_unreachable :
    (∀ (s : OptionChainSnapshot) (spot : ℚ), spot ≠ 0 →
      pointsOfSnapshotE s spot = Except.ok (pointsOfSnapshot s spot)) ∧
    ∀ (price : Option ℚ) (fetched : List (Option OptionChainSnapshot)),
      ivSurfaceResponseChecked price fetched = ivSurfaceResponse price fetched := by
  constructor
  · intro s spot h
    exact pointsOfSnapshotE_ok s h
  · intro price fetched
    cases price with
    | none => rfl
    | some p =>
        by_cases hp : p = 0
        · simp [ivSurfaceResponseChecked, ivSurfaceResponse, hp]
        · have hb : buildSurfaceRE fetched p = buildSurfaceR fetched p := by
            unfold buildSurfaceRE buildSurfaceR
            congr 1
            funext os
            cases os with
            | none => rfl
            | some s => simp [pointsOfSnapshotE_ok s hp]
          simp [ivSurfaceResponseChecked, ivSurfaceResponse, hp, hb]

/-- C10 — witness: checked division on a concrete snapshot at spot 100
takes the ok branch. -/
theorem C10_witness :
    pointsOfSnapshotE plainSnap 100 = Except.ok (pointsOfSnapshot plainSnap 100) :=
  C10_div_by_zero_unreachable.1 plainSnap 100 (by norm_num)
